import Mathlib

/-!
Verification of the storyflow generation pipeline.

This file gives a shallow embedding, in Lean 4, of the algorithmic core of
the storyflow repository:

* the subtitle segmenter `parseAndGroupSrt` (backend storyboard service);
* the job orchestrator (in-memory job registry, SSE progress fan-out,
  result polling) of the backend server;
* the visual-enrichment loop of `generateStoryboard`;
* the duration-rescaling and Ken Burns transform logic of
  `videoService.ts`.

Modelling conventions:

* JavaScript numbers are modelled as exact rationals (`ℚ`);
  `Math.round` is modelled as `jsRound` (floor of x + 1/2, which is the
  JavaScript rounding rule, half towards positive infinity).
* JavaScript strings that the algorithms inspect character by character
  (subtitle texts, narrations) are modelled as `List Char`; strings that
  are only carried around (messages, errors, image URLs) stay `String`.
* The SRT block/timestamp parser is abstracted: the segmenter is embedded
  from the point where the source has produced its `timedLines` array, so
  its input here is a list of `TimedLine`s.  "Well-formed input that
  parses into at least one group" then reads "the list of timed lines is
  non-empty".
* External model calls and `Math.random()` draws are parameters of the
  embedded functions (oracles), quantified over in the theorems.
-/

-- The batteries rational arithmetic is `@[irreducible]`; make it
-- reducible again so that concrete witnesses evaluate by `decide`.
unseal Rat.add Rat.sub Rat.mul Rat.inv

/-- A parsed subtitle line: `{startTime, endTime, text}` (times in
seconds, text already tag-stripped), as produced by the SRT parsing
stage of `parseAndGroupSrt`. -/
structure TimedLine where
  startTime : ℚ
  endTime : ℚ
  text : List Char
  deriving DecidableEq

/-- The segmenter-internal accumulator `SceneGroup`
`{narration, startTime, endTime}`. -/
structure SceneGroup where
  narration : List Char
  startTime : ℚ
  endTime : ℚ
  deriving DecidableEq

/-- A scene as returned by the segmenter (the TypeScript
`SceneWithoutVisuals`): timing and narration fields are set,
`visualDescription` is still the empty placeholder and there is no
`imageUrl` yet. -/
structure SceneWithoutVisuals where
  sceneNumber : ℕ
  narration : List Char
  duration : String
  durationSeconds : ℚ
  visualDescription : List Char
  deriving DecidableEq

/-- Word counting helper for
`narration.split(&#47;\s+&#47;).filter(Boolean).length`: counts maximal runs
of non-whitespace characters.  The `inWord` flag records whether the
previous character was part of a word. -/
def countWordsAux : List Char → Bool → ℕ
  | [], _ => 0
  | c :: cs, inWord =>
    if c.isWhitespace then countWordsAux cs false
    else (if inWord then 0 else 1) + countWordsAux cs true

/-- Number of words of a text, as the source computes it with
`text.split(&#47;\s+&#47;).filter(Boolean).length`. -/
def countWords (text : List Char) : ℕ :=
  countWordsAux text false

/-- The fixed pause threshold `MAX_PAUSE_SECONDS = 1.5` of
`parseAndGroupSrt`. -/
def MAX_PAUSE_SECONDS : ℚ := 3 / 2

/-- The grouping loop of `parseAndGroupSrt` (`for (let i = 1; ...)`).
The state `cur` carries `currentSceneNarration` (`cur.narration`),
`currentSceneStartTime` (`cur.startTime`) and `lastLineEndTime`
(`cur.endTime`).  A new group starts when the pause since the previous
line exceeds `MAX_PAUSE_SECONDS` or appending the line would push the
word count of the group past `maxWordsPerScene`; otherwise the line is
space-joined into the current group. -/
def groupSrtAux (maxWordsPerScene : ℕ) : SceneGroup → List TimedLine → List SceneGroup
  | cur, [] => [cur]
  | cur, line :: rest =>
    let wordCountSoFar := countWords cur.narration
    let newWordsCount := countWords line.text
    let pauseSinceLastLine := line.startTime - cur.endTime
    if pauseSinceLastLine > MAX_PAUSE_SECONDS ∨
        wordCountSoFar + newWordsCount > maxWordsPerScene then
      cur :: groupSrtAux maxWordsPerScene
        ⟨line.text, line.startTime, line.endTime⟩ rest
    else
      groupSrtAux maxWordsPerScene
        ⟨cur.narration ++ ' ' :: line.text, cur.startTime, line.endTime⟩ rest

/-- The `sceneGroups` array built by `parseAndGroupSrt` from the parsed
timed lines (empty input gives no groups). -/
def groupSrt (timedLines : List TimedLine) (maxWordsPerScene : ℕ) : List SceneGroup :=
  match timedLines with
  | [] => []
  | l :: rest => groupSrtAux maxWordsPerScene ⟨l.text, l.startTime, l.endTime⟩ rest

/-- JavaScript `Math.round`: floor of `q + 1/2` (halves round towards
positive infinity). -/
def jsRound (q : ℚ) : ℤ :=
  ⌊q + 1 / 2⌋

/-- The display string `"N segundo(s)"` built from the rounded display
duration. -/
def renderDuration (displayDurationSeconds : ℤ) : String :=
  toString displayDurationSeconds ++ " segundo" ++
    (if 1 < displayDurationSeconds then "s" else "")

/-- The scene record built in the final `sceneGroups.map` of
`parseAndGroupSrt` for the group at `index`, given the raw (unfloored)
`durationSeconds` computed for that group. -/
def finalizeScene (index : ℕ) (group : SceneGroup) (durationSeconds : ℚ) :
    SceneWithoutVisuals :=
  { sceneNumber := index + 1
    narration := group.narration
    duration := renderDuration (max 1 (jsRound durationSeconds))
    durationSeconds := max (1 / 10) durationSeconds
    visualDescription := [] }

/-- The final `sceneGroups.map((group, index) => ...)` of
`parseAndGroupSrt`: every group except the last gets raw duration
`next group's startTime - group.startTime`; the last gets
`group.endTime - group.startTime`. -/
def finalizeGroups (index : ℕ) : List SceneGroup → List SceneWithoutVisuals
  | [] => []
  | [g] => [finalizeScene index g (g.endTime - g.startTime)]
  | g :: g2 :: rest =>
    finalizeScene index g (g2.startTime - g.startTime) ::
      finalizeGroups (index + 1) (g2 :: rest)

/-- `parseAndGroupSrt(srtContent, maxWordsPerScene)` from the point where
the SRT text has been parsed into `timedLines`: group the lines, then
finalize the groups into scenes. -/
def parseAndGroupSrt (timedLines : List TimedLine) (maxWordsPerScene : ℕ) :
    List SceneWithoutVisuals :=
  finalizeGroups 0 (groupSrt timedLines maxWordsPerScene)

theorem finalizeGroups_getElem?_mid :
    ∀ (gs : List SceneGroup) (k i : ℕ) (g g2 : SceneGroup),
      gs[i]? = some g → gs[i + 1]? = some g2 →
      (finalizeGroups k gs)[i]? =
        some (finalizeScene (k + i) g (g2.startTime - g.startTime))
  | [], _, i, _, _, h, _ => by simp at h
  | [g0], _, i, _, _, h, h2 => by
    cases i with
    | zero => simp at h2
    | succ j => simp at h
  | g0 :: g1 :: rest, k, 0, g, g2, h, h2 => by
    simp only [List.getElem?_cons_zero, Option.some.injEq] at h
    simp only [List.getElem?_cons_succ, List.getElem?_cons_zero,
      Option.some.injEq] at h2
    subst h; subst h2
    simp [finalizeGroups]
  | g0 :: g1 :: rest, k, j + 1, g, g2, h, h2 => by
    simp only [List.getElem?_cons_succ] at h h2
    have ih := finalizeGroups_getElem?_mid (g1 :: rest) (k + 1) j g g2 h
      (by simpa using h2)
    have harith : k + 1 + j = k + (j + 1) := by omega
    simpa [finalizeGroups, harith] using ih

theorem finalizeGroups_getElem?_last :
    ∀ (gs : List SceneGroup) (k i : ℕ) (g : SceneGroup),
      gs[i]? = some g → gs[i + 1]? = none →
      (finalizeGroups k gs)[i]? =
        some (finalizeScene (k + i) g (g.endTime - g.startTime))
  | [], _, i, _, h, _ => by simp at h
  | [g0], k, 0, g, h, _ => by
    simp only [List.getElem?_cons_zero, Option.some.injEq] at h
    subst h
    simp [finalizeGroups]
  | [g0], _, j + 1, _, h, _ => by simp at h
  | g0 :: g1 :: rest, _, 0, _, _, h2 => by simp at h2
  | g0 :: g1 :: rest, k, j + 1, g, h, h2 => by
    simp only [List.getElem?_cons_succ] at h h2
    have ih := finalizeGroups_getElem?_last (g1 :: rest) (k + 1) j g h
      (by simpa using h2)
    have harith : k + 1 + j = k + (j + 1) := by omega
    simpa [finalizeGroups, harith] using ih

/-- C1.  For every well-formed subtitle input that parses into at least
one scene group, each scene except the last has precise
`durationSeconds = max(0.1, next group's startTime - this group's
startTime)`, the last scene has
`max(0.1, its own endTime - its own startTime)`, and the display
`duration` is the string rendered from `max(1, round(raw duration))`
seconds. -/
theorem c1_segmenter_duration_assignment (timedLines : List TimedLine)
    (maxWordsPerScene : ℕ) (_hne : timedLines ≠ []) :
    (∀ i g g2, (groupSrt timedLines maxWordsPerScene)[i]? = some g →
      (groupSrt timedLines maxWordsPerScene)[i + 1]? = some g2 →
      ∃ s, (parseAndGroupSrt timedLines maxWordsPerScene)[i]? = some s ∧
        s.durationSeconds = max (1 / 10) (g2.startTime - g.startTime) ∧
        s.duration =
          renderDuration (max 1 (jsRound (g2.startTime - g.startTime)))) ∧
    (∀ i g, (groupSrt timedLines maxWordsPerScene)[i]? = some g →
      (groupSrt timedLines maxWordsPerScene)[i + 1]? = none →
      ∃ s, (parseAndGroupSrt timedLines maxWordsPerScene)[i]? = some s ∧
        s.durationSeconds = max (1 / 10) (g.endTime - g.startTime) ∧
        s.duration =
          renderDuration (max 1 (jsRound (g.endTime - g.startTime)))) := by
  constructor
  · intro i g g2 h h2
    exact ⟨finalizeScene (0 + i) g (g2.startTime - g.startTime),
      finalizeGroups_getElem?_mid _ 0 i g g2 h h2, rfl, rfl⟩
  · intro i g h h2
    exact ⟨finalizeScene (0 + i) g (g.endTime - g.startTime),
      finalizeGroups_getElem?_last _ 0 i g h h2, rfl, rfl⟩

/-- Witness for C1: a two-group input (4-second pause splits the
groups); the first scene gets the gap-absorbing duration 5, the last its
own span 1. -/
theorem c1_segmenter_duration_assignment_witness :
    ∃ s, (parseAndGroupSrt
        [⟨0, 1, "a b".toList⟩, ⟨5, 6, "c d".toList⟩] 10)[0]? = some s ∧
      s.durationSeconds = max (1 / 10) ((5 : ℚ) - 0) ∧
      s.duration = renderDuration (max 1 (jsRound ((5 : ℚ) - 0))) :=
  (c1_segmenter_duration_assignment
      [⟨0, 1, "a b".toList⟩, ⟨5, 6, "c d".toList⟩] 10 (by decide)).1
    0 ⟨"a b".toList, 0, 1⟩ ⟨"c d".toList, 5, 6⟩ (by decide) (by decide)

theorem countWordsAux_append_space (a b : List Char) (w : Bool) :
    countWordsAux (a ++ ' ' :: b) w = countWordsAux a w + countWordsAux b false := by
  induction a generalizing w with
  | nil =>
    show countWordsAux b false = countWordsAux [] w + countWordsAux b false
    rw [countWordsAux]
    omega
  | cons c cs ih =>
    show countWordsAux (c :: (cs ++ ' ' :: b)) w = _
    rw [countWordsAux, countWordsAux]
    by_cases hc : c.isWhitespace
    · rw [if_pos hc, if_pos hc, ih]
    · rw [if_neg hc, if_neg hc, ih]
      omega

/-- Space-joining two texts adds their word counts (the source joins
lines with `currentSceneNarration += ' ' + line.text`). -/
theorem countWords_append_space (a b : List Char) :
    countWords (a ++ ' ' :: b) = countWords a + countWords b :=
  countWordsAux_append_space a b false

theorem groupSrtAux_narration_invariant (maxWordsPerScene : ℕ)
    (texts : List (List Char)) :
    ∀ (rest : List TimedLine) (cur : SceneGroup),
      (∀ l ∈ rest, l.text ∈ texts) →
      (countWords cur.narration ≤ maxWordsPerScene ∨ cur.narration ∈ texts) →
      ∀ g ∈ groupSrtAux maxWordsPerScene cur rest,
        countWords g.narration ≤ maxWordsPerScene ∨ g.narration ∈ texts
  | [], cur, _, hcur, g, hg => by
    rw [groupSrtAux, List.mem_singleton] at hg
    exact hg ▸ hcur
  | line :: rest, cur, hrest, hcur, g, hg => by
    rw [groupSrtAux] at hg
    split at hg
    · rcases List.mem_cons.mp hg with hg | hg
      · exact hg ▸ hcur
      · exact groupSrtAux_narration_invariant maxWordsPerScene texts rest _
          (fun l hl => hrest l (List.mem_cons_of_mem _ hl))
          (Or.inr (hrest line (List.mem_cons_self _ _)))
          g hg
    · next hcond =>
      have hle : countWords cur.narration + countWords line.text ≤
          maxWordsPerScene := by
        rcases not_or.mp hcond with ⟨_, h2⟩
        omega
      exact groupSrtAux_narration_invariant maxWordsPerScene texts rest _
        (fun l hl => hrest l (List.mem_cons_of_mem _ hl))
        (Or.inl (by rw [countWords_append_space]; exact hle))
        g hg

theorem finalizeGroups_narration :
    ∀ (gs : List SceneGroup) (k : ℕ) (s : SceneWithoutVisuals),
      s ∈ finalizeGroups k gs → ∃ g ∈ gs, s.narration = g.narration
  | [], _, s, hs => by simp [finalizeGroups] at hs
  | [g], k, s, hs => by
    rw [finalizeGroups, List.mem_singleton] at hs
    exact ⟨g, List.mem_singleton_self g, by rw [hs]; rfl⟩
  | g :: g2 :: rest, k, s, hs => by
    rw [finalizeGroups] at hs
    rcases List.mem_cons.mp hs with hs | hs
    · exact ⟨g, List.mem_cons_self _ _, by rw [hs]; rfl⟩
    · obtain ⟨g', hg', hn⟩ := finalizeGroups_narration (g2 :: rest) (k + 1) s hs
      exact ⟨g', List.mem_cons_of_mem _ hg', hn⟩

/-- C3.  No scene produced by the segmenter has a narration word count
above `maxWordsPerScene`, except a scene whose narration is a single
source subtitle line (an over-long line is never split: it forms its own
scene, with its text intact). -/
theorem c3_word_budget (timedLines : List TimedLine) (maxWordsPerScene : ℕ) :
    ∀ s ∈ parseAndGroupSrt timedLines maxWordsPerScene,
      countWords s.narration ≤ maxWordsPerScene ∨
      ∃ l ∈ timedLines, s.narration = l.text := by
  intro s hs
  obtain ⟨g, hg, hn⟩ := finalizeGroups_narration _ 0 s hs
  match timedLines, hg with
  | l :: rest, hg =>
    have := groupSrtAux_narration_invariant maxWordsPerScene
      ((l :: rest).map TimedLine.text) rest ⟨l.text, l.startTime, l.endTime⟩
      (fun l' hl' => List.mem_map_of_mem TimedLine.text
        (List.mem_cons_of_mem _ hl'))
      (Or.inr (List.mem_map_of_mem TimedLine.text (List.mem_cons_self _ _)))
      g hg
    rw [hn]
    rcases this with h | h
    · exact Or.inl h
    · obtain ⟨l', hl', he⟩ := List.mem_map.mp h
      exact Or.inr ⟨l', hl', he.symm⟩

/-- Witness for C3: with budget 2, the 3-word opening line is over
budget but forms its own unsplit scene. -/
theorem c3_word_budget_witness :
    countWords ("a b c".toList) ≤ 2 ∨
    ∃ l ∈ [(⟨0, 1, "a b c".toList⟩ : TimedLine), ⟨1, 2, "d".toList⟩],
      ("a b c".toList) = l.text := by
  have h := c3_word_budget
    [(⟨0, 1, "a b c".toList⟩ : TimedLine), ⟨1, 2, "d".toList⟩] 2
    { sceneNumber := 1
      narration := "a b c".toList
      duration := "1 segundo"
      durationSeconds := 1
      visualDescription := [] }
    (by decide)
  exact h

/-- The side condition under which the `Math.max(0.1, ...)` floor of the
segmenter never fires: every raw scene duration (difference of
consecutive group start times; own span for the last group) is at least
0.1 s. -/
def noFloorBind : List SceneGroup → Bool
  | [] => true
  | [g] => decide (1 / 10 ≤ g.endTime - g.startTime)
  | g :: g2 :: rest =>
    decide (1 / 10 ≤ g2.startTime - g.startTime) && noFloorBind (g2 :: rest)

theorem groupSrtAux_head?_startTime (maxWordsPerScene : ℕ) :
    ∀ (rest : List TimedLine) (cur : SceneGroup),
      (groupSrtAux maxWordsPerScene cur rest).head?.map SceneGroup.startTime =
        some cur.startTime
  | [], cur => by simp [groupSrtAux]
  | line :: rest, cur => by
    rw [groupSrtAux]
    split
    · simp
    · exact groupSrtAux_head?_startTime maxWordsPerScene rest _

theorem groupSrtAux_ne_nil (maxWordsPerScene : ℕ) :
    ∀ (rest : List TimedLine) (cur : SceneGroup),
      groupSrtAux maxWordsPerScene cur rest ≠ []
  | [], cur => by simp [groupSrtAux]
  | line :: rest, cur => by
    rw [groupSrtAux]
    split
    · simp
    · exact groupSrtAux_ne_nil maxWordsPerScene rest _

theorem getLast?_map_getD_cons {α : Type} (f : α → ℚ) (x : α) (l : List α)
    (c : ℚ) :
    (((x :: l).getLast?).map f).getD c = ((l.getLast?).map f).getD (f x) := by
  cases l with
  | nil => simp
  | cons y ys =>
    rw [List.getLast?_cons_cons]
    have : (y :: ys).getLast?.isSome := by
      rw [List.getLast?_isSome]
      exact List.cons_ne_nil y ys
    obtain ⟨z, hz⟩ := Option.isSome_iff_exists.mp this
    rw [hz]
    simp

theorem groupSrtAux_getLast?_endTime (maxWordsPerScene : ℕ) :
    ∀ (rest : List TimedLine) (cur : SceneGroup),
      ((groupSrtAux maxWordsPerScene cur rest).getLast?).map SceneGroup.endTime =
        some (((rest.getLast?).map TimedLine.endTime).getD cur.endTime)
  | [], cur => by simp [groupSrtAux]
  | line :: rest, cur => by
    rw [groupSrtAux]
    rw [getLast?_map_getD_cons TimedLine.endTime line rest cur.endTime]
    split
    · obtain ⟨h, t, he⟩ := List.exists_cons_of_ne_nil
        (groupSrtAux_ne_nil maxWordsPerScene rest
          ⟨line.text, line.startTime, line.endTime⟩)
      rw [he, List.getLast?_cons_cons, ← he]
      exact groupSrtAux_getLast?_endTime maxWordsPerScene rest _
    · exact groupSrtAux_getLast?_endTime maxWordsPerScene rest _

theorem finalizeGroups_sum :
    ∀ (k : ℕ) (g : SceneGroup) (gs : List SceneGroup) (glEnd : ℚ),
      (((g :: gs).getLast?).map SceneGroup.endTime) = some glEnd →
      noFloorBind (g :: gs) = true →
      ((finalizeGroups k (g :: gs)).map
          SceneWithoutVisuals.durationSeconds).sum = glEnd - g.startTime
  | k, g, [], glEnd, hlast, hfloor => by
    have hEnd : g.endTime = glEnd := by simpa using hlast
    have hf : 1 / 10 ≤ g.endTime - g.startTime :=
      of_decide_eq_true (hfloor : decide (1 / 10 ≤ g.endTime - g.startTime) = true)
    rw [finalizeGroups]
    simp only [List.map_cons, List.map_nil, List.sum_cons, List.sum_nil,
      finalizeScene, add_zero]
    rw [max_eq_right hf, hEnd]
  | k, g, g2 :: gs, glEnd, hlast, hfloor => by
    rw [List.getLast?_cons_cons] at hlast
    have hfloor2 : (decide (1 / 10 ≤ g2.startTime - g.startTime) &&
        noFloorBind (g2 :: gs)) = true := hfloor
    rw [Bool.and_eq_true] at hfloor2
    have hf : 1 / 10 ≤ g2.startTime - g.startTime :=
      of_decide_eq_true hfloor2.1
    have ih := finalizeGroups_sum (k + 1) g2 gs glEnd hlast hfloor2.2
    rw [finalizeGroups]
    simp only [List.map_cons, List.sum_cons, finalizeScene]
    rw [ih, max_eq_right hf]
    ring

/-- Counterexample to C2 as stated: two lines 0.05 s apart that the
2-word budget splits into two groups.  The first scene's raw duration
0.05 is floored to 0.1, so the durations sum to 3.05, not the total
span 3 - 0 = 3. -/
theorem c2_duration_sum_counterexample :
    ([⟨0, 1 / 20, "a b".toList⟩, ⟨1 / 20, 3, "c d e".toList⟩] :
        List TimedLine) ≠ [] ∧
    ((parseAndGroupSrt
        [⟨0, 1 / 20, "a b".toList⟩, ⟨1 / 20, 3, "c d e".toList⟩] 2).map
      SceneWithoutVisuals.durationSeconds).sum ≠ (3 : ℚ) - 0 := by
  refine ⟨by decide, by decide⟩

/-- C2 (amended).  For every non-empty, well-formed subtitle input in
which no raw scene duration falls below the 0.1 s floor, the sum of the
precise `durationSeconds` over all scenes equals the input's total time
span: the end time of the last parsed line minus the start time of the
first parsed line. -/
theorem c2_duration_sum_amended (timedLines : List TimedLine)
    (maxWordsPerScene : ℕ) (l0 lN : TimedLine)
    (h0 : timedLines.head? = some l0)
    (hN : timedLines.getLast? = some lN)
    (hfloor : noFloorBind (groupSrt timedLines maxWordsPerScene) = true) :
    ((parseAndGroupSrt timedLines maxWordsPerScene).map
        SceneWithoutVisuals.durationSeconds).sum =
      lN.endTime - l0.startTime := by
  obtain ⟨l, rest, rfl⟩ : ∃ l rest, timedLines = l :: rest := by
    cases timedLines with
    | nil => simp at h0
    | cons a as => exact ⟨a, as, rfl⟩
  simp only [List.head?_cons, Option.some.injEq] at h0
  subst h0
  rw [parseAndGroupSrt, groupSrt] at *
  obtain ⟨g, gs, hg⟩ := List.exists_cons_of_ne_nil
    (groupSrtAux_ne_nil maxWordsPerScene rest ⟨l.text, l.startTime, l.endTime⟩)
  have hhead := groupSrtAux_head?_startTime maxWordsPerScene rest
    ⟨l.text, l.startTime, l.endTime⟩
  rw [hg] at hhead
  have hhead2 : g.startTime = l.startTime := by simpa using hhead
  have hlast := groupSrtAux_getLast?_endTime maxWordsPerScene rest
    ⟨l.text, l.startTime, l.endTime⟩
  have hlast2 : ((rest.getLast?).map TimedLine.endTime).getD l.endTime =
      lN.endTime := by
    have hbr := getLast?_map_getD_cons TimedLine.endTime l rest 0
    rw [hN] at hbr
    simpa using hbr.symm
  rw [hg] at hlast hfloor
  rw [hlast2] at hlast
  rw [hg, finalizeGroups_sum 0 g gs lN.endTime hlast hfloor, hhead2]

/-- Witness for the amended C2: two merged lines spanning 0-4 s give a
single scene whose duration 4 is exactly the span. -/
theorem c2_duration_sum_amended_witness :
    ((parseAndGroupSrt [⟨0, 2, "a b".toList⟩, ⟨2, 4, "c d".toList⟩] 10).map
        SceneWithoutVisuals.durationSeconds).sum =
      (4 : ℚ) - 0 :=
  c2_duration_sum_amended [⟨0, 2, "a b".toList⟩, ⟨2, 4, "c d".toList⟩] 10
    ⟨0, 2, "a b".toList⟩ ⟨2, 4, "c d".toList⟩ (by decide) (by decide) (by decide)

/-- `scaledScenes[scaledScenes.length - 1].durationSeconds += diff`:
add `diff` to the last duration of the list. -/
def addToLastDuration : List ℚ → ℚ → List ℚ
  | [], _ => []
  | [d], diff => [d + diff]
  | d :: d2 :: rest, diff => d :: addToLastDuration (d2 :: rest) diff

/-- The duration-reconciliation step of `generateVideoFromScenes`
(`videoService.ts`), on the scenes' duration list: when the audio track
is supplied, if the original total exceeds 0.1 s every duration is
multiplied by `scaleFactor = audioDuration / totalSrtDuration`, and any
difference between the audio duration and the scaled sum larger than
0.001 is added to the last scene. -/
def rescaleDurationsForAudio (durations : List ℚ) (audioDuration : ℚ) : List ℚ :=
  if 1 / 10 < durations.sum then
    if 0 < (durations.map (fun d => d * (audioDuration / durations.sum))).length ∧
        1 / 1000 <
          |audioDuration -
            (durations.map (fun d => d * (audioDuration / durations.sum))).sum| then
      addToLastDuration
        (durations.map (fun d => d * (audioDuration / durations.sum)))
        (audioDuration -
          (durations.map (fun d => d * (audioDuration / durations.sum))).sum)
    else
      durations.map (fun d => d * (audioDuration / durations.sum))
  else durations

theorem sum_map_mul (l : List ℚ) (c : ℚ) :
    (l.map (fun d => d * c)).sum = l.sum * c := by
  induction l with
  | nil => simp
  | cons d rest ih => simp [ih, add_mul]

/-- Counterexample to C7 as stated: a single scene of duration 0.05 and
a 5 s audio track.  The total original duration is positive, but the
compositor's `totalSrtDuration > 0.1` guard fails, so no rescaling
happens at all: the claimed uniform factor would give [5], yet the
result is the unchanged [0.05], whose sum is nowhere near the audio
duration. -/
theorem c7_audio_rescale_counterexample :
    (0 : ℚ) < ([1 / 20] : List ℚ).sum ∧
    rescaleDurationsForAudio [1 / 20] 5 = [1 / 20] ∧
    ([1 / 20] : List ℚ).map (fun d => d * (5 / ([1 / 20] : List ℚ).sum)) = [5] ∧
    (rescaleDurationsForAudio [1 / 20] 5).sum ≠ 5 := by
  refine ⟨by decide, by decide, by decide, by decide⟩

/-- C7 (amended).  When an audio track is supplied and the sum of the
original scene durations exceeds the compositor's 0.1 s guard, every
scene's duration is rescaled by the single uniform factor
`audioDuration / (sum of original durations)` (the residue correction on
the last scene is zero in exact arithmetic), and the rescaled durations
sum exactly to the audio duration. -/
theorem c7_audio_rescale_amended (durations : List ℚ) (audioDuration : ℚ)
    (h : 1 / 10 < durations.sum) :
    rescaleDurationsForAudio durations audioDuration =
      durations.map (fun d => d * (audioDuration / durations.sum)) ∧
    (rescaleDurationsForAudio durations audioDuration).sum = audioDuration := by
  have hT : durations.sum ≠ 0 := by
    intro h0
    rw [h0] at h
    norm_num at h
  have key : (durations.map (fun d => d * (audioDuration / durations.sum))).sum
      = audioDuration := by
    rw [sum_map_mul, mul_comm, div_mul_cancel₀ _ hT]
  have hcond : ¬ (0 <
      (durations.map (fun d => d * (audioDuration / durations.sum))).length ∧
      1 / 1000 <
        |audioDuration -
          (durations.map (fun d => d * (audioDuration / durations.sum))).sum|) := by
    rintro ⟨-, habs⟩
    rw [key, sub_self, abs_zero] at habs
    norm_num at habs
  rw [rescaleDurationsForAudio, if_pos h, if_neg hcond]
  exact ⟨rfl, key⟩

/-- Witness for the amended C7: durations [1, 3] against a 2 s audio
track are both halved and the halves sum to 2. -/
theorem c7_audio_rescale_amended_witness :
    rescaleDurationsForAudio [1, 3] 2 =
      ([1, 3] : List ℚ).map (fun d => d * (2 / ([1, 3] : List ℚ).sum)) ∧
    (rescaleDurationsForAudio [1, 3] 2).sum = 2 :=
  c7_audio_rescale_amended [1, 3] 2 (by decide)

/-- The cover-fit scale of `getKenBurnsTransforms`:
`(imgAspect > canvasAspect) ? canvasHeight / imgHeight : canvasWidth / imgWidth`. -/
def initialScale (imgWidth imgHeight canvasWidth canvasHeight : ℚ) : ℚ :=
  if canvasWidth / canvasHeight < imgWidth / imgHeight then
    canvasHeight / imgHeight
  else
    canvasWidth / imgWidth

/-- `startScale = zoomIn ? initialScale : initialScale * 1.2`. -/
def startScale (imgWidth imgHeight canvasWidth canvasHeight : ℚ)
    (zoomIn : Bool) : ℚ :=
  if zoomIn then initialScale imgWidth imgHeight canvasWidth canvasHeight
  else initialScale imgWidth imgHeight canvasWidth canvasHeight * (6 / 5)

/-- `endScale = zoomIn ? initialScale * 1.2 : initialScale`. -/
def endScale (imgWidth imgHeight canvasWidth canvasHeight : ℚ)
    (zoomIn : Bool) : ℚ :=
  if zoomIn then initialScale imgWidth imgHeight canvasWidth canvasHeight * (6 / 5)
  else initialScale imgWidth imgHeight canvasWidth canvasHeight

/-- `getMaxOffset(scaledSize, canvasSize) = Math.max(0, (scaledSize - canvasSize) / 2)`. -/
def getMaxOffset (scaledSize canvasSize : ℚ) : ℚ :=
  max 0 ((scaledSize - canvasSize) / 2)

/-- One destination rectangle `{dx, dy, dWidth, dHeight}`. -/
structure DestRect where
  dx : ℚ
  dy : ℚ
  dWidth : ℚ
  dHeight : ℚ
  deriving DecidableEq

/-- The source rectangle `{sx, sy, sWidth, sHeight}`. -/
structure SourceRect where
  sx : ℚ
  sy : ℚ
  sWidth : ℚ
  sHeight : ℚ
  deriving DecidableEq

/-- The result of `getKenBurnsTransforms`: the source crop plus the
destination rectangle at the start and at the end of the scene (the
source's `dest.start` and `dest.end`). -/
structure KenBurnsTransforms where
  source : SourceRect
  destStart : DestRect
  destEnd : DestRect
  deriving DecidableEq

/-- `getKenBurnsTransforms(imgWidth, imgHeight, canvasWidth, canvasHeight)`
with the two `Math.random()` draws made explicit: `zoomIn` is the
`Math.random() > 0.5` coin, `panX`/`panY` are the `Math.random() - 0.5`
draws (values in [-0.5, 0.5]).  `startX = maxOffsetXStart + panX *
maxOffsetXStart`, `endX = maxOffsetXEnd - panX * maxOffsetXEnd`, and the
destination rectangles are `{dx: -startX, dy: -startY, dWidth: startW,
dHeight: startH}` and `{dx: -endX, dy: -endY, dWidth: endW, dHeight: endH}`. -/
def getKenBurnsTransforms (imgWidth imgHeight canvasWidth canvasHeight : ℚ)
    (zoomIn : Bool) (panX panY : ℚ) : KenBurnsTransforms :=
  { source := ⟨0, 0, imgWidth, imgHeight⟩
    destStart :=
      { dx := -(getMaxOffset
            (imgWidth * startScale imgWidth imgHeight canvasWidth canvasHeight zoomIn)
            canvasWidth +
          panX * getMaxOffset
            (imgWidth * startScale imgWidth imgHeight canvasWidth canvasHeight zoomIn)
            canvasWidth)
        dy := -(getMaxOffset
            (imgHeight * startScale imgWidth imgHeight canvasWidth canvasHeight zoomIn)
            canvasHeight +
          panY * getMaxOffset
            (imgHeight * startScale imgWidth imgHeight canvasWidth canvasHeight zoomIn)
            canvasHeight)
        dWidth := imgWidth * startScale imgWidth imgHeight canvasWidth canvasHeight zoomIn
        dHeight := imgHeight * startScale imgWidth imgHeight canvasWidth canvasHeight zoomIn }
    destEnd :=
      { dx := -(getMaxOffset
            (imgWidth * endScale imgWidth imgHeight canvasWidth canvasHeight zoomIn)
            canvasWidth -
          panX * getMaxOffset
            (imgWidth * endScale imgWidth imgHeight canvasWidth canvasHeight zoomIn)
            canvasWidth)
        dy := -(getMaxOffset
            (imgHeight * endScale imgWidth imgHeight canvasWidth canvasHeight zoomIn)
            canvasHeight -
          panY * getMaxOffset
            (imgHeight * endScale imgWidth imgHeight canvasWidth canvasHeight zoomIn)
            canvasHeight)
        dWidth := imgWidth * endScale imgWidth imgHeight canvasWidth canvasHeight zoomIn
        dHeight := imgHeight * endScale imgWidth imgHeight canvasWidth canvasHeight zoomIn } }

/-- The linear interpolation `start + (end - start) * progress` done per
frame by the render loop of `generateVideoFromScenes`. -/
def lerp (start stop progress : ℚ) : ℚ :=
  start + (stop - start) * progress

theorem initialScale_pos (imgWidth imgHeight canvasWidth canvasHeight : ℚ)
    (hiw : 0 < imgWidth) (hih : 0 < imgHeight)
    (hcw : 0 < canvasWidth) (hch : 0 < canvasHeight) :
    0 < initialScale imgWidth imgHeight canvasWidth canvasHeight := by
  rw [initialScale]
  split <;> positivity

theorem initialScale_covers_width (imgWidth imgHeight canvasWidth canvasHeight : ℚ)
    (hiw : 0 < imgWidth) (hih : 0 < imgHeight)
    (hcw : 0 < canvasWidth) (hch : 0 < canvasHeight) :
    canvasWidth ≤ imgWidth * initialScale imgWidth imgHeight canvasWidth canvasHeight := by
  rw [initialScale]
  split
  · next hlt =>
    rw [div_lt_div_iff hch hih] at hlt
    rw [mul_div_assoc', le_div_iff hih]
    nlinarith
  · rw [mul_comm, div_mul_cancel₀ _ (ne_of_gt hiw)]

theorem initialScale_covers_height (imgWidth imgHeight canvasWidth canvasHeight : ℚ)
    (hiw : 0 < imgWidth) (hih : 0 < imgHeight)
    (hcw : 0 < canvasWidth) (hch : 0 < canvasHeight) :
    canvasHeight ≤ imgHeight * initialScale imgWidth imgHeight canvasWidth canvasHeight := by
  rw [initialScale]
  split
  · rw [mul_comm, div_mul_cancel₀ _ (ne_of_gt hih)]
  · next hge =>
    rw [not_lt, div_le_div_iff hih hch] at hge
    rw [mul_div_assoc', le_div_iff hiw]
    nlinarith

theorem kb_endpoint_plus (w c m p : ℚ) (hm : m = (w - c) / 2) (hw : c ≤ w)
    (hp1 : -1 ≤ p) (hp2 : p ≤ 1) :
    -(m + p * m) ≤ 0 ∧ c ≤ -(m + p * m) + w := by
  subst hm
  constructor
  · nlinarith [mul_nonneg (by linarith : (0 : ℚ) ≤ w - c)
      (by linarith : (0 : ℚ) ≤ 1 + p)]
  · nlinarith [mul_nonneg (by linarith : (0 : ℚ) ≤ w - c)
      (by linarith : (0 : ℚ) ≤ 1 - p)]

theorem kb_endpoint_minus (w c m p : ℚ) (hm : m = (w - c) / 2) (hw : c ≤ w)
    (hp1 : -1 ≤ p) (hp2 : p ≤ 1) :
    -(m - p * m) ≤ 0 ∧ c ≤ -(m - p * m) + w := by
  have h := kb_endpoint_plus w c m (-p) hm hw (by linarith) (by linarith)
  have e : -(m + -p * m) = -(m - p * m) := by ring
  rw [e] at h
  exact h

theorem lerp_nonpos (a b t : ℚ) (ha : a ≤ 0) (hb : b ≤ 0)
    (ht0 : 0 ≤ t) (ht1 : t ≤ 1) : lerp a b t ≤ 0 := by
  rw [lerp]
  nlinarith [mul_nonneg (by linarith : (0 : ℚ) ≤ 1 - t) (by linarith : (0 : ℚ) ≤ -a),
    mul_nonneg ht0 (by linarith : (0 : ℚ) ≤ -b)]

theorem lerp_sum_ge (c a w b v t : ℚ) (haw : c ≤ a + w) (hbv : c ≤ b + v)
    (ht0 : 0 ≤ t) (ht1 : t ≤ 1) : c ≤ lerp a b t + lerp w v t := by
  rw [lerp, lerp]
  nlinarith [mul_nonneg (by linarith : (0 : ℚ) ≤ 1 - t)
      (by linarith : (0 : ℚ) ≤ a + w - c),
    mul_nonneg ht0 (by linarith : (0 : ℚ) ≤ b + v - c)]

theorem kb_axis_all (wS wE c p t : ℚ) (hwS : c ≤ wS) (hwE : c ≤ wE)
    (hp1 : -1 ≤ p) (hp2 : p ≤ 1) (ht0 : 0 ≤ t) (ht1 : t ≤ 1) :
    lerp (-(getMaxOffset wS c + p * getMaxOffset wS c))
        (-(getMaxOffset wE c - p * getMaxOffset wE c)) t ≤ 0 ∧
    c ≤ lerp (-(getMaxOffset wS c + p * getMaxOffset wS c))
          (-(getMaxOffset wE c - p * getMaxOffset wE c)) t +
        lerp wS wE t := by
  have hmS : getMaxOffset wS c = (wS - c) / 2 :=
    max_eq_right (by linarith)
  have hmE : getMaxOffset wE c = (wE - c) / 2 :=
    max_eq_right (by linarith)
  have hS := kb_endpoint_plus wS c (getMaxOffset wS c) p hmS hwS hp1 hp2
  have hE := kb_endpoint_minus wE c (getMaxOffset wE c) p hmE hwE hp1 hp2
  exact ⟨lerp_nonpos _ _ _ hS.1 hE.1 ht0 ht1,
    lerp_sum_ge _ _ _ _ _ _ hS.2 hE.2 ht0 ht1⟩

/-- C8.  For every image and canvas with positive dimensions and every
random draw (zoom direction, pan biases in [-0.5, 0.5]), the start and
end scales of the Ken Burns transform lie between 1.0 and 1.2 times the
cover-fit scale, and the interpolated destination rectangle covers the
whole output frame at every progress t in [0, 1]: its offsets are ≤ 0
and offset plus scaled size reaches the canvas size on both axes (t = 0
and t = 1 give the start and end rectangles themselves). -/
theorem c8_ken_burns_invariants (imgWidth imgHeight canvasWidth canvasHeight : ℚ)
    (zoomIn : Bool) (panX panY t : ℚ)
    (hiw : 0 < imgWidth) (hih : 0 < imgHeight)
    (hcw : 0 < canvasWidth) (hch : 0 < canvasHeight)
    (hpx1 : -(1 / 2) ≤ panX) (hpx2 : panX ≤ 1 / 2)
    (hpy1 : -(1 / 2) ≤ panY) (hpy2 : panY ≤ 1 / 2)
    (ht0 : 0 ≤ t) (ht1 : t ≤ 1) :
    (initialScale imgWidth imgHeight canvasWidth canvasHeight ≤
        startScale imgWidth imgHeight canvasWidth canvasHeight zoomIn ∧
      startScale imgWidth imgHeight canvasWidth canvasHeight zoomIn ≤
        initialScale imgWidth imgHeight canvasWidth canvasHeight * (6 / 5) ∧
      initialScale imgWidth imgHeight canvasWidth canvasHeight ≤
        endScale imgWidth imgHeight canvasWidth canvasHeight zoomIn ∧
      endScale imgWidth imgHeight canvasWidth canvasHeight zoomIn ≤
        initialScale imgWidth imgHeight canvasWidth canvasHeight * (6 / 5)) ∧
    (lerp (getKenBurnsTransforms imgWidth imgHeight canvasWidth canvasHeight
          zoomIn panX panY).destStart.dx
        (getKenBurnsTransforms imgWidth imgHeight canvasWidth canvasHeight
          zoomIn panX panY).destEnd.dx t ≤ 0 ∧
      lerp (getKenBurnsTransforms imgWidth imgHeight canvasWidth canvasHeight
          zoomIn panX panY).destStart.dy
        (getKenBurnsTransforms imgWidth imgHeight canvasWidth canvasHeight
          zoomIn panX panY).destEnd.dy t ≤ 0 ∧
      canvasWidth ≤
        lerp (getKenBurnsTransforms imgWidth imgHeight canvasWidth canvasHeight
            zoomIn panX panY).destStart.dx
          (getKenBurnsTransforms imgWidth imgHeight canvasWidth canvasHeight
            zoomIn panX panY).destEnd.dx t +
        lerp (getKenBurnsTransforms imgWidth imgHeight canvasWidth canvasHeight
            zoomIn panX panY).destStart.dWidth
          (getKenBurnsTransforms imgWidth imgHeight canvasWidth canvasHeight
            zoomIn panX panY).destEnd.dWidth t ∧
      canvasHeight ≤
        lerp (getKenBurnsTransforms imgWidth imgHeight canvasWidth canvasHeight
            zoomIn panX panY).destStart.dy
          (getKenBurnsTransforms imgWidth imgHeight canvasWidth canvasHeight
            zoomIn panX panY).destEnd.dy t +
        lerp (getKenBurnsTransforms imgWidth imgHeight canvasWidth canvasHeight
            zoomIn panX panY).destStart.dHeight
          (getKenBurnsTransforms imgWidth imgHeight canvasWidth canvasHeight
            zoomIn panX panY).destEnd.dHeight t) := by
  have hfit := initialScale_pos imgWidth imgHeight canvasWidth canvasHeight
    hiw hih hcw hch
  have hfw := initialScale_covers_width imgWidth imgHeight canvasWidth canvasHeight
    hiw hih hcw hch
  have hfh := initialScale_covers_height imgWidth imgHeight canvasWidth canvasHeight
    hiw hih hcw hch
  have hscales :
      initialScale imgWidth imgHeight canvasWidth canvasHeight ≤
        startScale imgWidth imgHeight canvasWidth canvasHeight zoomIn ∧
      startScale imgWidth imgHeight canvasWidth canvasHeight zoomIn ≤
        initialScale imgWidth imgHeight canvasWidth canvasHeight * (6 / 5) ∧
      initialScale imgWidth imgHeight canvasWidth canvasHeight ≤
        endScale imgWidth imgHeight canvasWidth canvasHeight zoomIn ∧
      endScale imgWidth imgHeight canvasWidth canvasHeight zoomIn ≤
        initialScale imgWidth imgHeight canvasWidth canvasHeight * (6 / 5) := by
    cases zoomIn <;>
      simp only [startScale, endScale, Bool.false_eq_true, if_false, if_true] <;>
      refine ⟨?_, ?_, ?_, ?_⟩ <;> nlinarith
  have hWS : canvasWidth ≤ imgWidth *
      startScale imgWidth imgHeight canvasWidth canvasHeight zoomIn := by
    nlinarith [mul_le_mul_of_nonneg_left hscales.1 (le_of_lt hiw)]
  have hWE : canvasWidth ≤ imgWidth *
      endScale imgWidth imgHeight canvasWidth canvasHeight zoomIn := by
    nlinarith [mul_le_mul_of_nonneg_left hscales.2.2.1 (le_of_lt hiw)]
  have hHS : canvasHeight ≤ imgHeight *
      startScale imgWidth imgHeight canvasWidth canvasHeight zoomIn := by
    nlinarith [mul_le_mul_of_nonneg_left hscales.1 (le_of_lt hih)]
  have hHE : canvasHeight ≤ imgHeight *
      endScale imgWidth imgHeight canvasWidth canvasHeight zoomIn := by
    nlinarith [mul_le_mul_of_nonneg_left hscales.2.2.1 (le_of_lt hih)]
  have hx := kb_axis_all
    (imgWidth * startScale imgWidth imgHeight canvasWidth canvasHeight zoomIn)
    (imgWidth * endScale imgWidth imgHeight canvasWidth canvasHeight zoomIn)
    canvasWidth panX t hWS hWE (by linarith) (by linarith) ht0 ht1
  have hy := kb_axis_all
    (imgHeight * startScale imgWidth imgHeight canvasWidth canvasHeight zoomIn)
    (imgHeight * endScale imgWidth imgHeight canvasWidth canvasHeight zoomIn)
    canvasHeight panY t hHS hHE (by linarith) (by linarith) ht0 ht1
  exact ⟨hscales,
    by simpa only [getKenBurnsTransforms] using hx.1,
    by simpa only [getKenBurnsTransforms] using hy.1,
    by simpa only [getKenBurnsTransforms] using hx.2,
    by simpa only [getKenBurnsTransforms] using hy.2⟩

/-- Witness for C8: a 200x100 image on a 16x9 canvas, zooming in with
pan bias (1&#47;4, -1&#47;4), sampled at mid-scene progress 1&#47;2. -/
theorem c8_ken_burns_invariants_witness :
    (initialScale 200 100 16 9 ≤ startScale 200 100 16 9 true ∧
      startScale 200 100 16 9 true ≤ initialScale 200 100 16 9 * (6 / 5) ∧
      initialScale 200 100 16 9 ≤ endScale 200 100 16 9 true ∧
      endScale 200 100 16 9 true ≤ initialScale 200 100 16 9 * (6 / 5)) ∧
    (lerp (getKenBurnsTransforms 200 100 16 9 true (1 / 4) (-(1 / 4))).destStart.dx
        (getKenBurnsTransforms 200 100 16 9 true (1 / 4) (-(1 / 4))).destEnd.dx (1 / 2) ≤ 0 ∧
      lerp (getKenBurnsTransforms 200 100 16 9 true (1 / 4) (-(1 / 4))).destStart.dy
        (getKenBurnsTransforms 200 100 16 9 true (1 / 4) (-(1 / 4))).destEnd.dy (1 / 2) ≤ 0 ∧
      (16 : ℚ) ≤
        lerp (getKenBurnsTransforms 200 100 16 9 true (1 / 4) (-(1 / 4))).destStart.dx
          (getKenBurnsTransforms 200 100 16 9 true (1 / 4) (-(1 / 4))).destEnd.dx (1 / 2) +
        lerp (getKenBurnsTransforms 200 100 16 9 true (1 / 4) (-(1 / 4))).destStart.dWidth
          (getKenBurnsTransforms 200 100 16 9 true (1 / 4) (-(1 / 4))).destEnd.dWidth (1 / 2) ∧
      (9 : ℚ) ≤
        lerp (getKenBurnsTransforms 200 100 16 9 true (1 / 4) (-(1 / 4))).destStart.dy
          (getKenBurnsTransforms 200 100 16 9 true (1 / 4) (-(1 / 4))).destEnd.dy (1 / 2) +
        lerp (getKenBurnsTransforms 200 100 16 9 true (1 / 4) (-(1 / 4))).destStart.dHeight
          (getKenBurnsTransforms 200 100 16 9 true (1 / 4) (-(1 / 4))).destEnd.dHeight (1 / 2)) :=
  c8_ken_burns_invariants 200 100 16 9 true (1 / 4) (-(1 / 4)) (1 / 2)
    (by decide) (by decide) (by decide) (by decide) (by decide) (by decide)
    (by decide) (by decide) (by decide) (by decide)

/-- A completed scene (the TypeScript `Scene`): the segmenter fields
plus `visualDescription` and `imageUrl`. -/
structure Scene where
  sceneNumber : ℕ
  narration : List Char
  duration : String
  durationSeconds : ℚ
  visualDescription : List Char
  imageUrl : String
  deriving DecidableEq

/-- The fixed `PLACEHOLDER_IMAGE_URL` data URI used when image
generation for a scene fails. -/
def PLACEHOLDER_IMAGE_URL : String :=
  "data:image/svg+xml,%3Csvg xmlns=\x27http://www.w3.org/2000/svg\x27 viewBox=\x270 0 200 112.5\x27%3E%3Crect width=\x27200\x27 height=\x27112.5\x27 fill=\x27%231f2937\x27/%3E%3Ctext x=\x27100\x27 y=\x2750\x27 text-anchor=\x27middle\x27 font-family=\x27sans-serif\x27 font-size=\x2710\x27 fill=\x27%23fca5a5\x27%3EFalha ao gerar a imagem%3C/text%3E%3Ctext x=\x27100\x27 y=\x2765\x27 text-anchor=\x27middle\x27 font-family=\x27sans-serif\x27 font-size=\x276\x27 fill=\x27%239ca3af\x27%3EVerifique o console para detalhes.%3C/text%3E%3C/svg%3E"

/-- JavaScript `String.prototype.trim`: strip whitespace from both
ends. -/
def jsTrim (s : List Char) : List Char :=
  ((s.dropWhile Char.isWhitespace).reverse.dropWhile Char.isWhitespace).reverse

/-- `generateVisualDescriptionForScene`, with the external model call
made explicit: `response` is `none` when the call throws (the `catch`
branch) or returns no text; a blank text also falls back.  The fallback
is `"Uma cena cinematográfica mostrando: " + narration`. -/
def generateVisualDescriptionForScene (narration : List Char)
    (response : Option (List Char)) : List Char :=
  match response with
  | none => "Uma cena cinematográfica mostrando: ".toList ++ narration
  | some text =>
    if jsTrim text = [] then
      "Uma cena cinematográfica mostrando: ".toList ++ narration
    else jsTrim text

/-- The outcome of the two external calls made for one scene:
`descResponse` is the text returned by the description model (`none`
for an exception or a missing text), `imageResult` is the generated
image URL (`none` when `generateImageForScene` throws). -/
structure SceneOracle where
  descResponse : Option (List Char)
  imageResult : Option String
  deriving DecidableEq

/-- One iteration of the enrichment loop of `generateStoryboard`: build
the visual description (with its internal fallback), then try the image
call; on failure push the scene with `PLACEHOLDER_IMAGE_URL` instead of
aborting. -/
def enrichScene (scene : SceneWithoutVisuals) (oracle : SceneOracle) : Scene :=
  match oracle.imageResult with
  | some imageUrl =>
    { sceneNumber := scene.sceneNumber
      narration := scene.narration
      duration := scene.duration
      durationSeconds := scene.durationSeconds
      visualDescription :=
        generateVisualDescriptionForScene scene.narration oracle.descResponse
      imageUrl := imageUrl }
  | none =>
    { sceneNumber := scene.sceneNumber
      narration := scene.narration
      duration := scene.duration
      durationSeconds := scene.durationSeconds
      visualDescription :=
        generateVisualDescriptionForScene scene.narration oracle.descResponse
      imageUrl := PLACEHOLDER_IMAGE_URL }

/-- The `for (let i = 0; ...)` enrichment loop of `generateStoryboard`,
carrying the loop index `i` (the oracle gives the external-call
outcomes for scene `i`). -/
def generateStoryboardLoop :
    List SceneWithoutVisuals → (ℕ → SceneOracle) → ℕ → List Scene
  | [], _, _ => []
  | scene :: rest, oracle, i =>
    enrichScene scene (oracle i) :: generateStoryboardLoop rest oracle (i + 1)

/-- `generateStoryboard` from the point where segmentation has produced
`scenesWithoutVisuals`: enrich every scene in order.  (The preceding
steps — mock mode, segmentation, and the empty-segmentation error — are
not needed by the per-scene claims.) -/
def generateStoryboard (scenesWithoutVisuals : List SceneWithoutVisuals)
    (oracle : ℕ → SceneOracle) : List Scene :=
  generateStoryboardLoop scenesWithoutVisuals oracle 0

theorem generateStoryboardLoop_getElem? :
    ∀ (scenes : List SceneWithoutVisuals) (oracle : ℕ → SceneOracle) (k i : ℕ),
      (generateStoryboardLoop scenes oracle k)[i]? =
        (scenes[i]?).map (fun s => enrichScene s (oracle (k + i)))
  | [], _, _, i => by simp [generateStoryboardLoop]
  | scene :: rest, oracle, k, 0 => by
    simp [generateStoryboardLoop]
  | scene :: rest, oracle, k, j + 1 => by
    have ih := generateStoryboardLoop_getElem? rest oracle (k + 1) j
    have harith : k + 1 + j = k + (j + 1) := by omega
    simpa [generateStoryboardLoop, harith] using ih

theorem generateStoryboardLoop_length :
    ∀ (scenes : List SceneWithoutVisuals) (oracle : ℕ → SceneOracle) (k : ℕ),
      (generateStoryboardLoop scenes oracle k).length = scenes.length
  | [], _, _ => rfl
  | scene :: rest, oracle, k => by
    rw [generateStoryboardLoop, List.length_cons, List.length_cons,
      generateStoryboardLoop_length rest oracle (k + 1)]

/-- C9.  Per-scene enrichment failures never abort the batch: the loop
returns one completed scene per segmented scene; a scene whose image
call fails gets the fixed placeholder image URL, and a scene whose
description call fails gets the fallback description built from its
narration. -/
theorem c9_enrichment_failure_handling (scenes : List SceneWithoutVisuals)
    (oracle : ℕ → SceneOracle) :
    (generateStoryboard scenes oracle).length = scenes.length ∧
    (∀ i s, scenes[i]? = some s → (oracle i).imageResult = none →
      ∃ out, (generateStoryboard scenes oracle)[i]? = some out ∧
        out.imageUrl = PLACEHOLDER_IMAGE_URL) ∧
    (∀ i s, scenes[i]? = some s → (oracle i).descResponse = none →
      ∃ out, (generateStoryboard scenes oracle)[i]? = some out ∧
        out.visualDescription =
          "Uma cena cinematográfica mostrando: ".toList ++ s.narration) := by
  refine ⟨generateStoryboardLoop_length scenes oracle 0, ?_, ?_⟩
  · intro i s hs himg
    refine ⟨enrichScene s (oracle i), ?_, ?_⟩
    · rw [generateStoryboard, generateStoryboardLoop_getElem?, hs]
      simp
    · rw [enrichScene, himg]
  · intro i s hs hdesc
    refine ⟨enrichScene s (oracle i), ?_, ?_⟩
    · rw [generateStoryboard, generateStoryboardLoop_getElem?, hs]
      simp
    · cases h : (oracle i).imageResult <;>
        rw [enrichScene, h] <;>
        simp [generateVisualDescriptionForScene, hdesc]

/-- Witness for C9: one scene whose description and image calls both
fail still yields one scene, with the placeholder image and the
narration-based fallback description. -/
theorem c9_enrichment_failure_handling_witness :
    (generateStoryboard
        [{ sceneNumber := 1, narration := "ola".toList, duration := "2 segundos",
           durationSeconds := 2, visualDescription := [] }]
        (fun _ => ⟨none, none⟩)).length = 1 ∧
    (∃ out, (generateStoryboard
        [{ sceneNumber := 1, narration := "ola".toList, duration := "2 segundos",
           durationSeconds := 2, visualDescription := [] }]
        (fun _ => ⟨none, none⟩))[0]? = some out ∧
      out.imageUrl = PLACEHOLDER_IMAGE_URL) := by
  have h := c9_enrichment_failure_handling
    [{ sceneNumber := 1, narration := "ola".toList, duration := "2 segundos",
       durationSeconds := 2, visualDescription := [] }]
    (fun _ => ⟨none, none⟩)
  exact ⟨h.1, h.2.1 0
    { sceneNumber := 1, narration := "ola".toList, duration := "2 segundos",
      durationSeconds := 2, visualDescription := [] } (by decide) rfl⟩

/-- C10.  The pipeline returns exactly one completed scene per segmented
scene, in order, and enrichment leaves `sceneNumber`, `narration`,
`duration` and `durationSeconds` unchanged: only `visualDescription`
and `imageUrl` are added. -/
theorem c10_enrichment_preserves_timing (scenes : List SceneWithoutVisuals)
    (oracle : ℕ → SceneOracle) (_hne : scenes ≠ []) :
    (generateStoryboard scenes oracle).length = scenes.length ∧
    ∀ (i : ℕ) (s : SceneWithoutVisuals), scenes[i]? = some s →
      ∃ out : Scene, (generateStoryboard scenes oracle)[i]? = some out ∧
        out.sceneNumber = s.sceneNumber ∧
        out.narration = s.narration ∧
        out.duration = s.duration ∧
        out.durationSeconds = s.durationSeconds := by
  refine ⟨generateStoryboardLoop_length scenes oracle 0, ?_⟩
  intro i s hs
  refine ⟨enrichScene s (oracle i), ?_, ?_⟩
  · rw [generateStoryboard, generateStoryboardLoop_getElem?, hs]
    simp
  · cases h : (oracle i).imageResult <;> rw [enrichScene, h] <;>
      exact ⟨rfl, rfl, rfl, rfl⟩

/-- Witness for C10: the enriched scene keeps the segmented scene's
numbering, narration and timing fields. -/
theorem c10_enrichment_preserves_timing_witness :
    (generateStoryboard
        [{ sceneNumber := 1, narration := "ola".toList, duration := "2 segundos",
           durationSeconds := 2, visualDescription := [] }]
        (fun _ => ⟨some "uma praia".toList, some "url"⟩)).length = 1 ∧
    (∃ out, (generateStoryboard
        [{ sceneNumber := 1, narration := "ola".toList, duration := "2 segundos",
           durationSeconds := 2, visualDescription := [] }]
        (fun _ => ⟨some "uma praia".toList, some "url"⟩))[0]? = some out ∧
      out.sceneNumber = 1 ∧
      out.narration = "ola".toList ∧
      out.duration = "2 segundos" ∧
      out.durationSeconds = 2) := by
  have h := c10_enrichment_preserves_timing
    [{ sceneNumber := 1, narration := "ola".toList, duration := "2 segundos",
       durationSeconds := 2, visualDescription := [] }]
    (fun _ => ⟨some "uma praia".toList, some "url"⟩) (by decide)
  exact ⟨h.1, h.2 0
    { sceneNumber := 1, narration := "ola".toList, duration := "2 segundos",
      durationSeconds := 2, visualDescription := [] } (by decide)⟩

/-- `StoryboardJobStatus = 'running' | 'completed' | 'failed'`. -/
inductive StoryboardJobStatus
  | running
  | completed
  | failed
  deriving DecidableEq

/-- The mutable fields of a `StoryboardJob` that the claims are about
(`id` is the registry key, `userId` only feeds the delegated access
check, and the `createdAt`/`updatedAt` wall-clock stamps are not
modelled). -/
structure StoryboardJob where
  projectId : String
  status : StoryboardJobStatus
  message : String
  scenes : Option (List Scene)
  error : Option String
  deriving DecidableEq

/-- One SSE event as written by `writeSseEvent`, reduced to the fields
the claims mention: kind, status/message payload for `progress`, the
scene count for `completed`, the error detail for `failed` (the
`projectId`/`updatedAt` payload fields carry no extra information). -/
inductive SseEvent
  | progress (status : StoryboardJobStatus) (message : String)
  | completed (sceneCount : ℕ)
  | failed (error : String)
  deriving DecidableEq

/-- One subscriber connection to a job's event stream: the events
written to it so far, whether `raw.end()` has been called, and whether
it is currently in the job's `clients` set. -/
structure SseSubscriber where
  stream : List SseEvent
  closed : Bool
  attached : Bool
  deriving DecidableEq

/-- One job together with its fan-out set (`job.clients`), the shared
state the orchestrator routes every operation through. -/
structure JobSystem where
  job : StoryboardJob
  subs : List SseSubscriber
  deriving DecidableEq

/-- `broadcastJobEvent`: write the event to every client currently in
the job's `clients` set.  (The per-client `try`/`catch` removal of a
client whose socket write throws is not modelled: writes succeed.) -/
def broadcastJobEvent (s : JobSystem) (e : SseEvent) : JobSystem :=
  { s with subs := s.subs.map fun c =>
      if c.attached then { c with stream := c.stream ++ [e] } else c }

/-- `notifyJobProgress`: update the job's message and broadcast a
`progress` event with the current status. -/
def notifyJobProgress (s : JobSystem) (message : String) : JobSystem :=
  broadcastJobEvent { s with job := { s.job with message := message } }
    (.progress s.job.status message)

/-- The `for (const client of job.clients) client.end(); job.clients.clear()`
epilogue of both terminal transitions. -/
def closeAllClients (s : JobSystem) : JobSystem :=
  { s with subs := s.subs.map fun c =>
      if c.attached then { c with closed := true, attached := false } else c }

/-- `finishJobSuccess`: set the terminal fields, broadcast one
`completed` event with the scene count, then end and clear every
client.  (The best-effort project persistence write has no effect on
the in-memory job.) -/
def finishJobSuccess (s : JobSystem) (scenes : List Scene) : JobSystem :=
  closeAllClients
    (broadcastJobEvent
      { s with job := { s.job with
          status := .completed
          scenes := some scenes
          message := "Storyboard completo!" } }
      (.completed scenes.length))

/-- `finishJobFailure`: set the terminal fields, broadcast one `failed`
event with the error detail, then end and clear every client. -/
def finishJobFailure (s : JobSystem) (error : String) : JobSystem :=
  closeAllClients
    (broadcastJobEvent
      { s with job := { s.job with
          status := .failed
          error := some error
          message := error } }
      (.failed error))

/-- The `GET /storyboard/jobs/:jobId/events` handler for an authorized
subscriber: write the snapshot `progress` event; if the job is already
terminal, write the single terminal event and end the stream without
joining `job.clients`; otherwise join `job.clients`. -/
def subscribeToJob (s : JobSystem) : JobSystem :=
  match s.job.status with
  | .completed =>
    { s with subs := s.subs ++
        [{ stream := [.progress s.job.status s.job.message,
             .completed (s.job.scenes.getD []).length]
           closed := true
           attached := false }] }
  | .failed =>
    { s with subs := s.subs ++
        [{ stream := [.progress s.job.status s.job.message,
             .failed (s.job.error.getD "")]
           closed := true
           attached := false }] }
  | .running =>
    { s with subs := s.subs ++
        [{ stream := [.progress s.job.status s.job.message]
           closed := false
           attached := true }] }

/-- The operations that touch a job after its creation: a subscriber
attaching, a progress notification from the background task, and the
two terminal transitions. -/
inductive JobSystemOp
  | subscribe
  | notifyProgress (message : String)
  | finishSuccess (scenes : List Scene)
  | finishFailure (error : String)
  deriving DecidableEq

def applyJobSystemOp (s : JobSystem) : JobSystemOp → JobSystem
  | .subscribe => subscribeToJob s
  | .notifyProgress message => notifyJobProgress s message
  | .finishSuccess scenes => finishJobSuccess s scenes
  | .finishFailure error => finishJobFailure s error

def runJobSystem (s : JobSystem) : List JobSystemOp → JobSystem
  | [] => s
  | op :: ops => runJobSystem (applyJobSystemOp s op) ops

/-- Job creation in `POST /storyboard/generate/start`: status `running`,
the initial message, no scenes, no error, empty `clients` set. -/
def createJobSystem (projectId : String) : JobSystem :=
  { job := { projectId := projectId
             status := .running
             message := "Job criado. Iniciando processamento..."
             scenes := none
             error := none }
    subs := [] }

def isFinishOp : JobSystemOp → Bool
  | .finishSuccess _ => true
  | .finishFailure _ => true
  | _ => false

/-- The statuses observed along a run, starting state included. -/
def statusTrace (s : JobSystem) : List JobSystemOp → List StoryboardJobStatus
  | [] => [s.job.status]
  | op :: ops => s.job.status :: statusTrace (applyJobSystemOp s op) ops

/-- Adjacent statuses either stay equal or step from `running` to a
non-`running` status. -/
def stepsMonotone : List StoryboardJobStatus → Prop
  | [] => True
  | [_] => True
  | a :: b :: rest =>
    (b = a ∨ (a = .running ∧ b ≠ .running)) ∧ stepsMonotone (b :: rest)

theorem subscribeToJob_job (s : JobSystem) : (subscribeToJob s).job = s.job := by
  unfold subscribeToJob
  split <;> rfl

theorem applyOp_status_not_finish (s : JobSystem) (op : JobSystemOp)
    (h : isFinishOp op = false) :
    (applyJobSystemOp s op).job.status = s.job.status := by
  cases op with
  | subscribe => rw [applyJobSystemOp, subscribeToJob_job]
  | notifyProgress message => rfl
  | finishSuccess scenes => simp [isFinishOp] at h
  | finishFailure error => simp [isFinishOp] at h

theorem applyOp_status_finish (s : JobSystem) (op : JobSystemOp)
    (h : isFinishOp op = true) :
    (applyJobSystemOp s op).job.status ≠ .running := by
  cases op with
  | subscribe => simp [isFinishOp] at h
  | notifyProgress message => simp [isFinishOp] at h
  | finishSuccess scenes =>
    show StoryboardJobStatus.completed ≠ .running
    decide
  | finishFailure error =>
    show StoryboardJobStatus.failed ≠ .running
    decide

theorem stepsMonotone_terminal : ∀ (ops : List JobSystemOp) (s : JobSystem),
    s.job.status ≠ .running → ops.countP isFinishOp = 0 →
    stepsMonotone (statusTrace s ops)
  | [], _, _, _ => trivial
  | op :: ops, s, hs, hc => by
    rw [List.countP_cons] at hc
    have hop : isFinishOp op = false := by
      cases h : isFinishOp op
      · rfl
      · rw [h] at hc; simp at hc
    have hst := applyOp_status_not_finish s op hop
    have ih := stepsMonotone_terminal ops (applyJobSystemOp s op)
      (by rw [hst]; exact hs) (by rw [hop] at hc; simpa using hc)
    cases ops with
    | nil => exact ⟨Or.inl hst, trivial⟩
    | cons op2 ops2 =>
      simp only [statusTrace] at ih ⊢
      exact ⟨Or.inl hst, ih⟩

theorem stepsMonotone_running : ∀ (ops : List JobSystemOp) (s : JobSystem),
    s.job.status = .running → ops.countP isFinishOp ≤ 1 →
    stepsMonotone (statusTrace s ops)
  | [], _, _, _ => trivial
  | op :: ops, s, hs, hc => by
    rw [List.countP_cons] at hc
    cases hop : isFinishOp op with
    | false =>
      have hst := applyOp_status_not_finish s op hop
      have ih := stepsMonotone_running ops (applyJobSystemOp s op)
        (by rw [hst]; exact hs) (by rw [hop] at hc; simpa using hc)
      cases ops with
      | nil => exact ⟨Or.inl (by rw [hst]), trivial⟩
      | cons op2 ops2 =>
        simp only [statusTrace] at ih ⊢
        exact ⟨Or.inl (by rw [hst]), ih⟩
    | true =>
      have hterm := applyOp_status_finish s op hop
      have ih := stepsMonotone_terminal ops (applyJobSystemOp s op) hterm
        (by rw [hop, if_pos rfl] at hc; omega)
      cases ops with
      | nil => exact ⟨Or.inr ⟨hs, hterm⟩, trivial⟩
      | cons op2 ops2 =>
        simp only [statusTrace] at ih ⊢
        exact ⟨Or.inr ⟨hs, hterm⟩, ih⟩

/-- C4.  The job state machine is monotonic: a job is created `running`;
along any run in which the background task performs at most one terminal
transition (as the source's single try/catch does), adjacent statuses
either stay equal or step from `running` to a terminal status; and no
operation whatsoever (subscribe, progress broadcast, or either terminal
transition, persistence and cleanup not touching status) ever takes a
non-`running` job back to `running`. -/
theorem c4_job_status_state_machine :
    (∀ projectId, (createJobSystem projectId).job.status = .running) ∧
    (∀ projectId (ops : List JobSystemOp), ops.countP isFinishOp ≤ 1 →
      stepsMonotone (statusTrace (createJobSystem projectId) ops)) ∧
    (∀ (s : JobSystem) (op : JobSystemOp), s.job.status ≠ .running →
      (applyJobSystemOp s op).job.status ≠ .running) := by
  refine ⟨fun _ => rfl, ?_, ?_⟩
  · intro projectId ops hc
    exact stepsMonotone_running ops (createJobSystem projectId) rfl hc
  · intro s op hs
    cases hop : isFinishOp op with
    | false => rw [applyOp_status_not_finish s op hop]; exact hs
    | true => exact applyOp_status_finish s op hop

/-- Witness for C4: a progress message followed by a successful finish
is a monotonic run, and subscribing to an already-failed job leaves it
non-`running`. -/
theorem c4_job_status_state_machine_witness :
    ([JobSystemOp.notifyProgress "a", JobSystemOp.finishSuccess []].countP
        isFinishOp ≤ 1) ∧
    stepsMonotone (statusTrace (createJobSystem "p")
      [JobSystemOp.notifyProgress "a", JobSystemOp.finishSuccess []]) ∧
    (applyJobSystemOp (finishJobFailure (createJobSystem "p") "erro")
        JobSystemOp.subscribe).job.status ≠ StoryboardJobStatus.running :=
  ⟨by decide,
    c4_job_status_state_machine.2.1 "p"
      [JobSystemOp.notifyProgress "a", JobSystemOp.finishSuccess []] (by decide),
    c4_job_status_state_machine.2.2
      (finishJobFailure (createJobSystem "p") "erro") JobSystemOp.subscribe
      (by decide)⟩

/-- `completed` and `failed` are the terminal event kinds. -/
def isTerminalEvent : SseEvent → Bool
  | .progress _ _ => false
  | .completed _ => true
  | .failed _ => true

/-- No terminal event has been written to this stream. -/
def noTerminalEvent (stream : List SseEvent) : Prop :=
  ∀ e ∈ stream, isTerminalEvent e = false

/-- The stream holds exactly one terminal event, as its very last
element. -/
def oneTerminalAtEnd (stream : List SseEvent) : Prop :=
  ∃ pre e, stream = pre ++ [e] ∧ isTerminalEvent e = true ∧ noTerminalEvent pre

/-- While the job runs, every subscriber is in the fan-out set, its
stream is open and it has seen no terminal event. -/
def runningInv (s : JobSystem) : Prop :=
  ∀ c ∈ s.subs, c.attached = true ∧ c.closed = false ∧ noTerminalEvent c.stream

/-- Once the job is terminal, every subscriber has been detached and
closed with exactly one terminal event at the end of its stream. -/
def terminalInv (s : JobSystem) : Prop :=
  ∀ c ∈ s.subs, c.attached = false ∧ c.closed = true ∧ oneTerminalAtEnd c.stream

/-- The fan-out invariant tying the job status to the subscribers'
streams. -/
def sysInv (s : JobSystem) : Prop :=
  (s.job.status = .running ∧ runningInv s) ∨
  (s.job.status ≠ .running ∧ terminalInv s)

theorem oneTerminalAtEnd_append (l : List SseEvent) (e : SseEvent)
    (hl : noTerminalEvent l) (he : isTerminalEvent e = true) :
    oneTerminalAtEnd (l ++ [e]) :=
  ⟨l, e, rfl, he, hl⟩

theorem sysInv_step (s : JobSystem) (op : JobSystemOp) (h : sysInv s) :
    sysInv (applyJobSystemOp s op) := by
  rcases h with ⟨hrun, hsubs⟩ | ⟨hterm, hsubs⟩
  · cases op with
    | subscribe =>
      left
      refine ⟨by rw [applyJobSystemOp, subscribeToJob_job]; exact hrun, ?_⟩
      intro c hc
      simp only [applyJobSystemOp, subscribeToJob, hrun] at hc
      rcases List.mem_append.mp hc with hc | hc
      · exact hsubs c hc
      · simp only [List.mem_singleton] at hc
        subst hc
        refine ⟨rfl, rfl, ?_⟩
        intro e he
        simp only [List.mem_singleton] at he
        subst he
        rfl
    | notifyProgress message =>
      left
      refine ⟨hrun, ?_⟩
      intro c hc
      simp only [applyJobSystemOp, notifyJobProgress, broadcastJobEvent,
        List.mem_map] at hc
      obtain ⟨c0, hc0, rfl⟩ := hc
      obtain ⟨ha, hcl, hnt⟩ := hsubs c0 hc0
      rw [if_pos ha]
      refine ⟨ha, hcl, ?_⟩
      intro e he
      rcases List.mem_append.mp he with he | he
      · exact hnt e he
      · simp only [List.mem_singleton] at he
        subst he
        rfl
    | finishSuccess scenes =>
      right
      refine ⟨applyOp_status_finish s (JobSystemOp.finishSuccess scenes) rfl, ?_⟩
      intro c hc
      simp only [applyJobSystemOp, finishJobSuccess, closeAllClients,
        broadcastJobEvent, List.map_map, List.mem_map] at hc
      obtain ⟨c0, hc0, rfl⟩ := hc
      obtain ⟨ha, hcl, hnt⟩ := hsubs c0 hc0
      simp only [Function.comp, if_pos ha]
      exact ⟨trivial, trivial, oneTerminalAtEnd_append c0.stream
        (SseEvent.completed scenes.length) hnt rfl⟩
    | finishFailure error =>
      right
      refine ⟨applyOp_status_finish s (JobSystemOp.finishFailure error) rfl, ?_⟩
      intro c hc
      simp only [applyJobSystemOp, finishJobFailure, closeAllClients,
        broadcastJobEvent, List.map_map, List.mem_map] at hc
      obtain ⟨c0, hc0, rfl⟩ := hc
      obtain ⟨ha, hcl, hnt⟩ := hsubs c0 hc0
      simp only [Function.comp, if_pos ha]
      exact ⟨trivial, trivial, oneTerminalAtEnd_append c0.stream
        (SseEvent.failed error) hnt rfl⟩
  · cases op with
    | subscribe =>
      right
      refine ⟨by rw [applyJobSystemOp, subscribeToJob_job]; exact hterm, ?_⟩
      intro c hc
      rcases hstat : s.job.status with _ | _ | _
      · exact absurd hstat hterm
      · simp only [applyJobSystemOp, subscribeToJob, hstat] at hc
        rcases List.mem_append.mp hc with hc | hc
        · exact hsubs c hc
        · simp only [List.mem_singleton] at hc
          subst hc
          refine ⟨rfl, rfl, ?_⟩
          show oneTerminalAtEnd
            ([SseEvent.progress StoryboardJobStatus.completed s.job.message] ++
              [SseEvent.completed (s.job.scenes.getD []).length])
          refine oneTerminalAtEnd_append _ _ ?_ rfl
          intro e he
          simp only [List.mem_singleton] at he
          subst he
          rfl
      · simp only [applyJobSystemOp, subscribeToJob, hstat] at hc
        rcases List.mem_append.mp hc with hc | hc
        · exact hsubs c hc
        · simp only [List.mem_singleton] at hc
          subst hc
          refine ⟨rfl, rfl, ?_⟩
          show oneTerminalAtEnd
            ([SseEvent.progress StoryboardJobStatus.failed s.job.message] ++
              [SseEvent.failed (s.job.error.getD "")])
          refine oneTerminalAtEnd_append _ _ ?_ rfl
          intro e he
          simp only [List.mem_singleton] at he
          subst he
          rfl
    | notifyProgress message =>
      right
      refine ⟨hterm, ?_⟩
      intro c hc
      simp only [applyJobSystemOp, notifyJobProgress, broadcastJobEvent,
        List.mem_map] at hc
      obtain ⟨c0, hc0, rfl⟩ := hc
      obtain ⟨ha, hcl, hone⟩ := hsubs c0 hc0
      rw [if_neg (by rw [ha]; exact Bool.false_ne_true)]
      exact ⟨ha, hcl, hone⟩
    | finishSuccess scenes =>
      right
      refine ⟨applyOp_status_finish s (JobSystemOp.finishSuccess scenes) rfl, ?_⟩
      intro c hc
      simp only [applyJobSystemOp, finishJobSuccess, closeAllClients,
        broadcastJobEvent, List.map_map, List.mem_map] at hc
      obtain ⟨c0, hc0, rfl⟩ := hc
      obtain ⟨ha, hcl, hone⟩ := hsubs c0 hc0
      simp only [Function.comp, if_neg (by rw [ha]; exact Bool.false_ne_true :
        ¬ c0.attached = true)]
      exact ⟨ha, hcl, hone⟩
    | finishFailure error =>
      right
      refine ⟨applyOp_status_finish s (JobSystemOp.finishFailure error) rfl, ?_⟩
      intro c hc
      simp only [applyJobSystemOp, finishJobFailure, closeAllClients,
        broadcastJobEvent, List.map_map, List.mem_map] at hc
      obtain ⟨c0, hc0, rfl⟩ := hc
      obtain ⟨ha, hcl, hone⟩ := hsubs c0 hc0
      simp only [Function.comp, if_neg (by rw [ha]; exact Bool.false_ne_true :
        ¬ c0.attached = true)]
      exact ⟨ha, hcl, hone⟩

theorem sysInv_run : ∀ (ops : List JobSystemOp) (s : JobSystem),
    sysInv s → sysInv (runJobSystem s ops)
  | [], _, h => h
  | op :: ops, s, h =>
    sysInv_run ops (applyJobSystemOp s op) (sysInv_step s op h)

/-- C5.  Whenever a job has reached a terminal status, every subscriber
stream is closed and carries exactly one terminal event, as its last
event; and a subscriber attaching after the job is already terminal
gets exactly the snapshot `progress` event followed by that single
terminal event (`completed` with the scene count, or `failed` with the
error detail) on a closed stream. -/
theorem c5_subscriber_terminal_events (projectId : String)
    (ops : List JobSystemOp) :
    ((runJobSystem (createJobSystem projectId) ops).job.status ≠ .running →
      ∀ c ∈ (runJobSystem (createJobSystem projectId) ops).subs,
        c.closed = true ∧ oneTerminalAtEnd c.stream) ∧
    ((runJobSystem (createJobSystem projectId) ops).job.status = .completed →
      (subscribeToJob (runJobSystem (createJobSystem projectId) ops)).subs.getLast? =
        some { stream := [.progress .completed
                  (runJobSystem (createJobSystem projectId) ops).job.message,
                .completed
                  ((runJobSystem (createJobSystem projectId) ops).job.scenes.getD
                    []).length]
               closed := true
               attached := false }) ∧
    ((runJobSystem (createJobSystem projectId) ops).job.status = .failed →
      (subscribeToJob (runJobSystem (createJobSystem projectId) ops)).subs.getLast? =
        some { stream := [.progress .failed
                  (runJobSystem (createJobSystem projectId) ops).job.message,
                .failed
                  ((runJobSystem (createJobSystem projectId) ops).job.error.getD "")]
               closed := true
               attached := false }) := by
  have hinv := sysInv_run ops (createJobSystem projectId)
    (Or.inl ⟨rfl, fun c hc => absurd hc (List.not_mem_nil c)⟩)
  refine ⟨?_, ?_, ?_⟩
  · intro hterm c hc
    rcases hinv with ⟨hr, _⟩ | ⟨_, ht⟩
    · exact absurd hr hterm
    · obtain ⟨_, hcl, hone⟩ := ht c hc
      exact ⟨hcl, hone⟩
  · intro hstat
    simp only [subscribeToJob, hstat]
    rw [List.getLast?_append_cons, List.getLast?_singleton]
  · intro hstat
    simp only [subscribeToJob, hstat]
    rw [List.getLast?_append_cons, List.getLast?_singleton]

/-- Witness for C5: after subscribe-then-success the single subscriber
is closed with the terminal event last; late subscribers to a completed
and to a failed job get snapshot plus terminal on a closed stream. -/
theorem c5_subscriber_terminal_events_witness :
    (({ stream := [SseEvent.progress .running "Job criado. Iniciando processamento...",
          SseEvent.completed 0]
        closed := true
        attached := false } : SseSubscriber).closed = true ∧
      oneTerminalAtEnd
        [SseEvent.progress .running "Job criado. Iniciando processamento...",
          SseEvent.completed 0]) ∧
    (subscribeToJob (runJobSystem (createJobSystem "p")
        [JobSystemOp.subscribe, JobSystemOp.finishSuccess []])).subs.getLast? =
      some { stream := [SseEvent.progress .completed "Storyboard completo!",
               SseEvent.completed 0]
             closed := true
             attached := false } ∧
    (subscribeToJob (runJobSystem (createJobSystem "p")
        [JobSystemOp.finishFailure "erro"])).subs.getLast? =
      some { stream := [SseEvent.progress .failed "erro", SseEvent.failed "erro"]
             closed := true
             attached := false } :=
  ⟨(c5_subscriber_terminal_events "p"
        [JobSystemOp.subscribe, JobSystemOp.finishSuccess []]).1 (by decide)
      { stream := [SseEvent.progress .running "Job criado. Iniciando processamento...",
          SseEvent.completed 0]
        closed := true
        attached := false } (by decide),
    (c5_subscriber_terminal_events "p"
        [JobSystemOp.subscribe, JobSystemOp.finishSuccess []]).2.1 (by decide),
    (c5_subscriber_terminal_events "p"
        [JobSystemOp.finishFailure "erro"]).2.2 (by decide)⟩

/-- `storyboardJobs.get(jobId)` on the in-memory registry (modelled as
an association list of id/job pairs). -/
def findJob : List (String × StoryboardJob) → String → Option StoryboardJob
  | [], _ => none
  | (k, job) :: rest, jobId => if k = jobId then some job else findJob rest jobId

/-- The response of `GET /storyboard/jobs/:jobId/result` (for an
authorized caller): 404 `JobNotFound`, the 202 running snapshot, the
400 failure payload, or the 200 scene list. -/
inductive PollResult
  | jobNotFound
  | runningSnapshot (projectId message : String)
  | failedResult (projectId message error : String)
  | completedResult (projectId message : String) (scenes : List Scene)
  deriving DecidableEq

/-- The result-poll handler: look the job up; a missing (never created
or already reaped) id gives `jobNotFound`; otherwise the payload is
chosen by the job's status, with `scenes: job.scenes || []` and
`error: job.error || 'Falha no job.'` exactly as in the source. -/
def pollJobResult (storyboardJobs : List (String × StoryboardJob))
    (jobId : String) : PollResult :=
  match findJob storyboardJobs jobId with
  | none => .jobNotFound
  | some job =>
    match job.status with
    | .running => .runningSnapshot job.projectId job.message
    | .failed => .failedResult job.projectId job.message
        (job.error.getD "Falha no job.")
    | .completed => .completedResult job.projectId job.message
        (job.scenes.getD [])

/-- `storyboardJobs.delete(job.id)`, the TTL cleanup's only action. -/
def deleteJob (storyboardJobs : List (String × StoryboardJob))
    (jobId : String) : List (String × StoryboardJob) :=
  storyboardJobs.filter fun p => p.1 ≠ jobId

theorem findJob_deleteJob_self :
    ∀ (jobs : List (String × StoryboardJob)) (jobId : String),
      findJob (deleteJob jobs jobId) jobId = none
  | [], _ => rfl
  | (k, job) :: rest, jobId => by
    rw [deleteJob, List.filter_cons]
    split
    · next hk =>
      rw [findJob, if_neg (by simpa using hk)]
      exact findJob_deleteJob_self rest jobId
    · exact findJob_deleteJob_self rest jobId

theorem findJob_deleteJob_other :
    ∀ (jobs : List (String × StoryboardJob)) (jobId jobId2 : String),
      jobId2 ≠ jobId →
      findJob (deleteJob jobs jobId2) jobId = findJob jobs jobId
  | [], _, _, _ => rfl
  | (k, job) :: rest, jobId, jobId2, hne => by
    rw [deleteJob, List.filter_cons]
    by_cases hk : k = jobId
    · subst hk
      rw [if_pos (by simpa using Ne.symm hne), findJob, if_pos rfl,
        findJob, if_pos rfl]
    · rw [findJob, if_neg hk]
      split
      · rw [findJob, if_neg hk]
        exact findJob_deleteJob_other rest jobId jobId2 hne
      · exact findJob_deleteJob_other rest jobId jobId2 hne

/-- C6.  Polling an existing job returns the 202 running snapshot while
it runs, the full scene list once completed, and the error detail once
failed; the poll is a pure read, so repeated polls after termination
return the same terminal payload (the TTL cleanup of other jobs does
not change it); and polling an id that does not exist or has been
discarded by the cleanup fails with `jobNotFound`. -/
theorem c6_poll_result_semantics :
    (∀ jobs jobId, findJob jobs jobId = none →
      pollJobResult jobs jobId = .jobNotFound) ∧
    (∀ jobs jobId job, findJob jobs jobId = some job →
      job.status = .running →
      pollJobResult jobs jobId = .runningSnapshot job.projectId job.message) ∧
    (∀ jobs jobId job, findJob jobs jobId = some job →
      job.status = .completed →
      pollJobResult jobs jobId =
        .completedResult job.projectId job.message (job.scenes.getD [])) ∧
    (∀ jobs jobId job, findJob jobs jobId = some job →
      job.status = .failed →
      pollJobResult jobs jobId =
        .failedResult job.projectId job.message
          (job.error.getD "Falha no job.")) ∧
    (∀ jobs jobId jobId2, jobId2 ≠ jobId →
      pollJobResult (deleteJob jobs jobId2) jobId = pollJobResult jobs jobId) ∧
    (∀ jobs jobId, pollJobResult (deleteJob jobs jobId) jobId = .jobNotFound) := by
  refine ⟨?_, ?_, ?_, ?_, ?_, ?_⟩
  · intro jobs jobId h
    rw [pollJobResult, h]
  · intro jobs jobId job h hs
    rw [pollJobResult, h]
    simp only [hs]
  · intro jobs jobId job h hs
    rw [pollJobResult, h]
    simp only [hs]
  · intro jobs jobId job h hs
    rw [pollJobResult, h]
    simp only [hs]
  · intro jobs jobId jobId2 hne
    rw [pollJobResult, pollJobResult, findJob_deleteJob_other jobs jobId jobId2 hne]
  · intro jobs jobId
    rw [pollJobResult, findJob_deleteJob_self jobs jobId]

/-- A small concrete registry with a completed, a running and a failed
job, used to exercise the poll endpoint. -/
def demoJobsRegistry : List (String × StoryboardJob) :=
  [("j1", { projectId := "p1", status := .completed, message := "ok",
            scenes := some [], error := none }),
   ("j2", { projectId := "p2", status := .running, message := "andamento",
            scenes := none, error := none }),
   ("jf", { projectId := "p3", status := .failed, message := "boom",
            scenes := none, error := some "boom" })]

/-- Witness for C6: the three status payloads on the demo registry,
invariance of a terminal payload under cleanup of another id, and
`jobNotFound` for unknown and for reaped ids. -/
theorem c6_poll_result_semantics_witness :
    pollJobResult demoJobsRegistry "nope" = .jobNotFound ∧
    pollJobResult demoJobsRegistry "j2" = .runningSnapshot "p2" "andamento" ∧
    pollJobResult demoJobsRegistry "j1" = .completedResult "p1" "ok" [] ∧
    pollJobResult demoJobsRegistry "jf" = .failedResult "p3" "boom" "boom" ∧
    pollJobResult (deleteJob demoJobsRegistry "j2") "j1" =
      pollJobResult demoJobsRegistry "j1" ∧
    pollJobResult (deleteJob demoJobsRegistry "j1") "j1" = .jobNotFound :=
  ⟨c6_poll_result_semantics.1 demoJobsRegistry "nope" (by decide),
    c6_poll_result_semantics.2.1 demoJobsRegistry "j2"
      { projectId := "p2", status := .running, message := "andamento",
        scenes := none, error := none } (by decide) rfl,
    c6_poll_result_semantics.2.2.1 demoJobsRegistry "j1"
      { projectId := "p1", status := .completed, message := "ok",
        scenes := some [], error := none } (by decide) rfl,
    c6_poll_result_semantics.2.2.2.1 demoJobsRegistry "jf"
      { projectId := "p3", status := .failed, message := "boom",
        scenes := none, error := some "boom" } (by decide) rfl,
    c6_poll_result_semantics.2.2.2.2.1 demoJobsRegistry "j1" "j2" (by decide),
    c6_poll_result_semantics.2.2.2.2.2 demoJobsRegistry "j1"⟩
